import Mathlib

/-!
# Camera position estimation (`camera-position/main.cpp`)

A shallow embedding of the pose-estimation pipeline: the object-point loader
(`readObjectPoints`, with the `sscanf` conversion it relies on), the click
collector (`onMouse`, `readImagePoints`), the camera-parameter loader
(`readCameraParameters`), `estimateCameraPosition`, `writeCameraPosition` and
`main`.  Everything outside the program (files, the operator's pointer events,
the OpenCV solver and projection) is gathered in a `World` record.
-/

namespace CameraPosition

/-! ## Machine integers and single-precision values -/

/-- The `int` holding the low 32 bits of `v` (two's complement). -/
@[irreducible]
def toInt32 (v : Int) : Int := (v + 2147483648) % 4294967296 - 2147483648

/-- Conversion of an integer to `std::size_t` (64 bits, unsigned). -/
@[irreducible]
def toSizeT (v : Int) : Nat := (v % 18446744073709551616).toNat

/-- Number of low bits dropped when `a > 2^24` is rounded to a 24-bit significand:
the least `sh` (searched upwards from the given start) with `a < 2^(24+sh)`. -/
def floatShift (a : Nat) : Nat → Nat → Nat
  | 0, sh => sh
  | fuel + 1, sh => if a < 2 ^ (24 + sh) then sh else floatShift a fuel (sh + 1)

/-- The `float` obtained from an `int` (as in `cv::Point2f(x, y)` with `int x, y`):
exact up to magnitude `2^24`, otherwise rounded to nearest, ties to even, on a
24-bit significand.  A finite `float` is represented by the rational it denotes. -/
def intToFloat (n : Int) : ℚ :=
  let a := n.natAbs
  if a ≤ 16777216 then (n : ℚ)
  else
    let sh := floatShift a 8 1
    let q := a / 2 ^ sh
    let r := a % 2 ^ sh
    let half := 2 ^ (sh - 1)
    let q1 := if half < r ∨ (r = half ∧ q % 2 = 1) then q + 1 else q
    ((n.sign * ((q1 * 2 ^ sh : Nat) : Int) : Int) : ℚ)

/-! ## Data model -/

/-- A `cv::Point2f`. -/
structure Point2f where
  x : ℚ
  y : ℚ
  deriving DecidableEq

/-- A `cv::Point3f`. -/
structure Point3f where
  x : ℚ
  y : ℚ
  z : ℚ
  deriving DecidableEq

/-- The constructor call `cv::Point2f(x, y)` on two `int`s. -/
def Point2f.ofInt (x y : Int) : Point2f := ⟨intToFloat x, intToFloat y⟩

/-- The constructor call `cv::Point3f(x, y, z)` on three `int`s. -/
def Point3f.ofInt (x y z : Int) : Point3f := ⟨intToFloat x, intToFloat y, intToFloat z⟩

/-- A `cv::Mat` as far as the program looks at it: its shape and its elements. -/
structure Mat where
  rows : Nat
  cols : Nat
  data : List ℚ
  deriving DecidableEq

/-- A default-constructed `cv::Mat`. -/
def Mat.empty : Mat := ⟨0, 0, []⟩

/-- The element count `cv::Mat::total()`. -/
def Mat.total (m : Mat) : Nat := m.rows * m.cols

/-- A `cv::Scalar` colour (blue, green, red). -/
structure Scalar where
  b : Nat
  g : Nat
  r : Nat
  deriving DecidableEq

/-- One marker drawn by `drawCross`: centre, colour, arm length, thickness. -/
structure Cross where
  center : Point2f
  color : Scalar
  length : Nat
  thickness : Nat
  deriving DecidableEq

/-- A pointer event as the window system hands it to the mouse callback. -/
structure MouseEvent where
  event : Int
  x : Int
  y : Int
  flags : Int
  deriving DecidableEq

/-- The value of `cv::EVENT_LBUTTONDOWN` in OpenCV's `highgui` header. -/
def EVENT_LBUTTONDOWN : Int := 1

/-- The file-scope variables of `main.cpp`.  `s_shownImage` is `none` for a `cv::Mat`
without data, otherwise the markers drawn on the loaded picture so far;
`s_clickedPoints` is `none` for `NULL`, otherwise the vector it points to. -/
structure Globals where
  s_shownWindowName : String
  s_shownImage : Option (List Cross)
  s_maxClickedCount : Nat
  s_clickedPoints : Option (List Point2f)
  deriving DecidableEq

/-- The variables as they are at program start. -/
def Globals.initial : Globals := ⟨"", none, 0, none⟩

/-- Everything the program reads from outside itself. -/
structure World where
  /-- The `std::ifstream` on a file: the lines `std::getline` yields, `none` when it does not open. -/
  textFile : String → Option (List String)
  /-- What the locals `int x, y, z` of the reading loop hold before `sscanf` runs, per line. -/
  indeterminate : Nat → Int × Int × Int
  /-- Whether `cv::imread` returns a picture with data. -/
  imread : String → Bool
  /-- Pointer events dispatched during the `cv::waitKey(0)` of `readImagePoints`. -/
  collectEvents : List MouseEvent
  /-- Pointer events dispatched during the `cv::waitKey(0)` of `evaluateImagePoints`. -/
  reviewEvents : List MouseEvent
  /-- The `cv::FileStorage` in READ mode: the named matrices, `none` when it is not opened. -/
  storage : String → Option (List (String × Mat))
  /-- The solver `cv::solvePnP`: the vectors left in `rvec`, `tvec`; `none` when it throws.
  Its boolean result is discarded at the call site. -/
  solvePnP : List Point3f → List Point2f → Mat → Mat → Option (Mat × Mat)
  /-- The projection `cv::projectPoints`. -/
  projectPoints : List Point3f → Mat → Mat → Mat → Mat → List Point2f
  /-- Whether `cv::FileStorage` in WRITE mode opens the file. -/
  writable : String → Bool

/-! ## The click collector -/

/-- The function `drawCross` on the shown image. -/
def drawCross (image : Option (List Cross)) (point : Point2f) (color : Scalar)
    (length thickness : Nat) : Option (List Cross) :=
  image.map (fun cs => cs ++ [⟨point, color, length, thickness⟩])

/-- The mouse callback.  `none` is the failed `assert(s_clickedPoints != NULL)`. -/
def onMouse (g : Globals) (e : MouseEvent) : Option Globals :=
  if e.event = EVENT_LBUTTONDOWN then
    match g.s_clickedPoints with
    | none => none
    | some pts =>
      if pts.length ≥ g.s_maxClickedCount then some g
      else
        let point := Point2f.ofInt e.x e.y
        some { g with
          s_clickedPoints := some (pts ++ [point])
          s_shownImage := drawCross g.s_shownImage point ⟨0, 0, 255⟩ 7 2 }
  else some g

/-- Dispatch of the events that arrive while `cv::waitKey(0)` blocks. -/
def waitKey (g : Globals) : List MouseEvent → Option Globals
  | [] => some g
  | e :: es =>
    match onMouse g e with
    | none => none
    | some g1 => waitKey g1 es

/-- The outcome of `readImagePoints`: result, the caller's vector, the globals. -/
structure ImagePointsResult where
  ok : Bool
  imagePoints : List Point2f
  globals : Globals
  deriving DecidableEq

/-- The interactive collector; `none` when the process aborted in the callback. -/
def readImagePoints (w : World) (g : Globals) (filename : String) (numPoints : Int)
    (imagePoints : List Point2f) : Option ImagePointsResult :=
  let g1 : Globals :=
    { g with s_shownWindowName := filename
             s_shownImage := if w.imread filename then some [] else none }
  if g1.s_shownImage = none then some ⟨false, imagePoints, g1⟩
  else
    let g2 : Globals :=
      { g1 with s_maxClickedCount := toSizeT numPoints
                s_clickedPoints := some imagePoints }
    match waitKey g2 w.collectEvents with
    | none => none
    | some g3 =>
      match g3.s_clickedPoints with
      | none => none
      | some pts =>
        if pts.length < g3.s_maxClickedCount then some ⟨false, pts, g3⟩
        else some ⟨true, pts, { g3 with s_clickedPoints := none }⟩

/-! ## The object-point loader -/

/-- The C locale's `isspace`. -/
def isspace (c : Char) : Bool :=
  c.toNat = 32 || (9 ≤ c.toNat && c.toNat ≤ 13)

/-- The C locale's `isdigit`. -/
def isdigit (c : Char) : Bool := 48 ≤ c.toNat && c.toNat ≤ 57

/-- Value of a run of decimal digits, most significant first. -/
def digitsValue (ds : List Char) : Nat :=
  ds.foldl (fun acc c => acc * 10 + (c.toNat - 48)) 0

/-- The value a `long` keeps of `v` (`strtol` saturates). -/
def clampLong (v : Int) : Int :=
  if v < -9223372036854775808 then -9223372036854775808
  else if 9223372036854775807 < v then 9223372036854775807
  else v

/-- The sign a `%d` directive reads, and the input after it. -/
def scanSign : List Char → Bool × List Char
  | '-' :: r => (true, r)
  | '+' :: r => (false, r)
  | s => (false, s)

/-- One `%d` directive of `sscanf`: skip white space, read an optional sign and the
longest run of digits; `none` is a matching failure.  The value is stored in an
`int` (in range exactly; beyond it the low 32 bits of the saturated `long`). -/
def scanInt (s : List Char) : Option (Int × List Char) :=
  let signed := scanSign (s.dropWhile isspace)
  let ds := signed.2.takeWhile isdigit
  if ds = [] then none
  else
    let v : Int := digitsValue ds
    some (toInt32 (clampLong (if signed.1 then -v else v)), signed.2.dropWhile isdigit)

/-- The literal `,` of the format. -/
def scanComma : List Char → Option (List Char)
  | ',' :: r => some r
  | _ => none

/-- The string `std::string::c_str` shows to C: the characters before the first NUL. -/
def c_str (line : String) : List Char := line.data.takeWhile (fun c => c.toNat ≠ 0)

/-- The call `sscanf(s, "%d,%d,%d", &x, &y, &z)`: its result (the number of items
assigned, `EOF` = -1 when the input ends before the first conversion) and the values
of `x`, `y`, `z` afterwards (an item not assigned keeps what it held). -/
def sscanf (s : List Char) (x y z : Int) : Int × Int × Int × Int :=
  if (s.dropWhile isspace).isEmpty then (-1, x, y, z)
  else
    match scanInt s with
    | none => (0, x, y, z)
    | some (x1, r1) =>
      match scanComma r1 with
      | none => (1, x1, y, z)
      | some r2 =>
        match scanInt r2 with
        | none => (1, x1, y, z)
        | some (y1, r3) =>
          match scanComma r3 with
          | none => (2, x1, y1, z)
          | some r4 =>
            match scanInt r4 with
            | none => (2, x1, y1, z)
            | some (z1, _) => (3, x1, y1, z1)

/-- The body of the reading loop up to the point it builds: `int x, y, z;`, the
unchecked `sscanf`, and `cv::Point3f(x, y, z)`; `i` is the index of the line. -/
def scanLine (w : World) (i : Nat) (line : String) : Point3f :=
  let u := w.indeterminate i
  let r := sscanf (c_str line) u.1 u.2.1 u.2.2
  Point3f.ofInt r.2.1 r.2.2.1 r.2.2.2

/-- The `while (std::getline(ifs, line))` loop; `i` counts the lines read so far. -/
def readLines (w : World) : Nat → List String → List Point3f → List Point3f
  | _, [], objectPoints => objectPoints
  | i, line :: rest, objectPoints =>
    readLines w (i + 1) rest (objectPoints ++ [scanLine w i line])

/-- The object-point loader: result and the output vector. -/
def readObjectPoints (w : World) (filename : String) (objectPoints : List Point3f) :
    Bool × List Point3f :=
  match w.textFile filename with
  | none => (false, objectPoints)
  | some lines => (true, readLines w 0 lines objectPoints)

/-! ## The camera-parameter loader -/

/-- The read `fs[name] >> m`: the first node of that name, an empty matrix without one. -/
def readNode (nodes : List (String × Mat)) (name : String) : Mat :=
  match nodes.find? (fun n => n.1 == name) with
  | some n => n.2
  | none => Mat.empty

/-- The camera-parameter loader: result, `intrinsic`, `distortion`. -/
def readCameraParameters (w : World) (filename : String) (intrinsic distortion : Mat) :
    Bool × Mat × Mat :=
  match w.storage filename with
  | none => (false, intrinsic, distortion)
  | some nodes =>
    let intrinsic1 := readNode nodes "intrinsic"
    let distortion1 := readNode nodes "distortion"
    (intrinsic1.total != 0 && distortion1.total != 0, intrinsic1, distortion1)

/-! ## Evaluation, estimation, writing, `main` -/

/-- Drawing one marker per point of a list. -/
def drawCrosses (image : Option (List Cross)) (color : Scalar) :
    List Point2f → Option (List Cross)
  | [] => image
  | p :: ps => drawCrosses (drawCross image p color 7 2) color ps

/-- The reprojection display; `none` when the process aborted in the mouse callback,
which is still installed on the window while `cv::waitKey(0)` blocks. -/
def evaluateImagePoints (w : World) (g : Globals) (points reprojectedPoints : List Point2f) :
    Option Globals :=
  let image1 := drawCrosses g.s_shownImage ⟨0, 0, 255⟩ points
  let image2 := drawCrosses image1 ⟨255, 0, 0⟩ reprojectedPoints
  waitKey { g with s_shownImage := image2 } w.reviewEvents

/-- The steps of the pipeline. -/
inductive Stage where
  | readObjectPoints
  | readImagePoints
  | readCameraParameters
  | solvePnP
  | projectPoints
  | evaluateImagePoints
  | writeCameraPosition
  deriving DecidableEq

/-- One invocation of a stage and whether it came back without failure: the boolean
it returned, or, for a stage without a checked result, that it returned at all. -/
structure Call where
  stage : Stage
  ok : Bool
  deriving DecidableEq

/-- What a run of `estimateCameraPosition` did: the stages invoked in order, the
point sequences handed to the solver (if it was invoked), the boolean returned
(`none` when the process aborted inside), and `rvec`, `tvec` afterwards. -/
structure Estimate where
  trace : List Call
  solverInput : Option (List Point3f × List Point2f)
  result : Option Bool
  rvec : Mat
  tvec : Mat
  deriving DecidableEq

/-- The function `estimateCameraPosition`. -/
def estimateCameraPosition (w : World) (g : Globals)
    (objectPointsFileName imageFileName cameraParamsFileName : String)
    (rvec tvec : Mat) : Estimate :=
  let r1 := readObjectPoints w objectPointsFileName []
  let objectPoints := r1.2
  if !r1.1 then ⟨[⟨.readObjectPoints, false⟩], none, some false, rvec, tvec⟩
  else
    let t1 : List Call := [⟨.readObjectPoints, true⟩]
    match readImagePoints w g imageFileName (toInt32 objectPoints.length) [] with
    | none => ⟨t1 ++ [⟨.readImagePoints, false⟩], none, none, rvec, tvec⟩
    | some r2 =>
      if !r2.ok then ⟨t1 ++ [⟨.readImagePoints, false⟩], none, some false, rvec, tvec⟩
      else
        let imagePoints := r2.imagePoints
        let t2 := t1 ++ [⟨.readImagePoints, true⟩]
        let r3 := readCameraParameters w cameraParamsFileName Mat.empty Mat.empty
        if !r3.1 then ⟨t2 ++ [⟨.readCameraParameters, false⟩], none, some false, rvec, tvec⟩
        else
          let intrinsic := r3.2.1
          let distortion := r3.2.2
          let t3 := t2 ++ [⟨.readCameraParameters, true⟩]
          let args := some (objectPoints, imagePoints)
          match w.solvePnP objectPoints imagePoints intrinsic distortion with
          | none => ⟨t3 ++ [⟨.solvePnP, false⟩], args, none, rvec, tvec⟩
          | some pose =>
            let t4 := t3 ++ [⟨.solvePnP, true⟩, ⟨.projectPoints, true⟩]
            let reprojectedImagePoints :=
              w.projectPoints objectPoints pose.1 pose.2 intrinsic distortion
            match evaluateImagePoints w r2.globals imagePoints reprojectedImagePoints with
            | none => ⟨t4 ++ [⟨.evaluateImagePoints, false⟩], args, none, pose.1, pose.2⟩
            | some _ => ⟨t4 ++ [⟨.evaluateImagePoints, true⟩], args, some true, pose.1, pose.2⟩

/-- The function `writeCameraPosition`: result and the nodes written, if any. -/
def writeCameraPosition (w : World) (filename : String) (rvec tvec : Mat) :
    Bool × Option (List (String × Mat)) :=
  if !w.writable filename then (false, none)
  else (true, some [("rotation", rvec), ("translation", tvec)])

/-- What a run of the program did: the stages invoked, the exit code (`none` when
the process aborted), and the content of `camera_position.xml` if it was written. -/
structure Run where
  trace : List Call
  exitCode : Option Nat
  written : Option (List (String × Mat))
  deriving DecidableEq

/-- The function `main`; `argv` holds the program name and the arguments. -/
def main (w : World) (argv : List String) : Run :=
  if argv.length ≤ 3 then ⟨[], some 1, none⟩
  else
    let objectPointsFileName := argv.getD 1 ""
    let imageFileName := argv.getD 2 ""
    let cameraParamsFileName := argv.getD 3 ""
    let e := estimateCameraPosition w Globals.initial objectPointsFileName imageFileName
      cameraParamsFileName Mat.empty Mat.empty
    match e.result with
    | none => ⟨e.trace, none, none⟩
    | some false => ⟨e.trace, some 1, none⟩
    | some true =>
      let r := writeCameraPosition w "camera_position.xml" e.rvec e.tvec
      ⟨e.trace ++ [⟨.writeCameraPosition, r.1⟩], some 0, r.2⟩

/-! ## Vocabulary of the statements -/

/-- The points `cv::Point2f(x, y)` of the left-button presses of an event sequence,
in the order of the presses. -/
def leftClicks (es : List MouseEvent) : List Point2f :=
  (es.filter (fun e => e.event = EVENT_LBUTTONDOWN)).map (fun e => Point2f.ofInt e.x e.y)

/-- The character of a decimal digit. -/
def digitChar : Fin 10 → Char
  | 0 => '0' | 1 => '1' | 2 => '2' | 3 => '3' | 4 => '4'
  | 5 => '5' | 6 => '6' | 7 => '7' | 8 => '8' | 9 => '9'

/-- A decimal integer as it is written: an optional sign (`some true` is `-`,
`some false` is `+`) and its digits, most significant first. -/
structure IntLiteral where
  sign : Option Bool
  digits : List (Fin 10)
  deriving DecidableEq

/-- The characters of a literal. -/
def IntLiteral.text (l : IntLiteral) : List Char :=
  (match l.sign with
    | none => []
    | some true => ['-']
    | some false => ['+']) ++ l.digits.map digitChar

/-- The integer a literal denotes. -/
def IntLiteral.value (l : IntLiteral) : Int :=
  let m : Int := (Nat.ofDigits 10 (l.digits.reverse.map Fin.val) : Nat)
  if l.sign = some true then -m else m

/-- A literal with at least one digit whose value an `int` holds. -/
def IntLiteral.IsInt (l : IntLiteral) : Prop :=
  l.digits ≠ [] ∧ -2147483648 ≤ l.value ∧ l.value ≤ 2147483647

instance (l : IntLiteral) : Decidable l.IsInt := by
  unfold IntLiteral.IsInt
  exact inferInstance

/-- The line `x,y,z` written with three literals. -/
def tripleLine (f : IntLiteral × IntLiteral × IntLiteral) : String :=
  String.mk (f.1.text ++ ',' :: (f.2.1.text ++ ',' :: f.2.2.text))

/-- The point a line `x,y,z` stands for: `cv::Point3f(x, y, z)`. -/
def triplePoint (f : IntLiteral × IntLiteral × IntLiteral) : Point3f :=
  Point3f.ofInt f.1.value f.2.1.value f.2.2.value

/-- A run in which everything goes well: four object points, four left clicks among
other events, both camera parameters present, a solver that returns. -/
def sampleWorld : World where
  textFile := fun _ => some ["0,0,0", "10,0,0", "0,10,0", "0,0,10"]
  indeterminate := fun _ => (0, 0, 0)
  imread := fun _ => true
  collectEvents := [⟨0, 5, 5, 0⟩, ⟨1, 320, 320, 1⟩, ⟨4, 320, 320, 0⟩, ⟨1, 370, 320, 1⟩,
    ⟨1, 320, 370, 1⟩, ⟨2, 1, 1, 2⟩, ⟨1, 320, 320, 1⟩, ⟨1, 9, 9, 1⟩]
  reviewEvents := [⟨0, 5, 5, 0⟩]
  storage := fun _ => some [("intrinsic", ⟨3, 3, [500, 0, 320, 0, 500, 320, 0, 0, 1]⟩),
    ("distortion", ⟨1, 5, [0, 0, 0, 0, 0]⟩)]
  solvePnP := fun _ _ _ _ => some (⟨3, 1, [0, 0, 0]⟩, ⟨3, 1, [0, 0, 100]⟩)
  projectPoints := fun _ _ _ _ _ => []
  writable := fun _ => true

/-- The command line of the sample runs. -/
def sampleArgv : List String :=
  ["camera-position", "object_points.txt", "image.png", "camera.xml"]

/-- The sample run in a working directory where `camera_position.xml` cannot be opened
for writing. -/
def unwritableWorld : World := { sampleWorld with writable := fun _ => false }

/-- The sample run with a camera-parameter file that does not open. -/
def noCameraWorld : World := { sampleWorld with storage := fun _ => none }

/-- A run with three object points and three left clicks; the solver returns a pose. -/
def threePointWorld : World :=
  { sampleWorld with
    textFile := fun _ => some ["0,0,0", "10,0,0", "0,10,0"]
    collectEvents := [⟨1, 320, 320, 1⟩, ⟨1, 370, 320, 1⟩, ⟨1, 320, 370, 1⟩] }

/-- The run of `threePointWorld` with a solver that throws instead. -/
def threePointThrowWorld : World :=
  { threePointWorld with solvePnP := fun _ _ _ _ => none }

/-- An object-point file with a blank line and a line of two fields; the locals of
the reading loop happen to hold 7, 8, 9. -/
def malformedWorld : World :=
  { sampleWorld with
    textFile := fun _ => some ["1,2,3", "", "4,5"]
    indeterminate := fun _ => (7, 8, 9) }

/-- The order in which `estimateCameraPosition` reaches its stages. -/
def stageOrder : List Stage :=
  [.readObjectPoints, .readImagePoints, .readCameraParameters, .solvePnP, .projectPoints,
    .evaluateImagePoints]

/-- An object-point file of one line, `12,-7,+005`. -/
def literalWorld : World :=
  { sampleWorld with textFile := fun _ => some ["12,-7,+005"] }

/-- The three literals of the line of `literalWorld`. -/
def literalFields : List (IntLiteral × IntLiteral × IntLiteral) :=
  [(⟨none, [1, 2]⟩, ⟨some true, [7]⟩, ⟨some false, [0, 0, 5]⟩)]

/-- An object-point file whose first line has a coordinate above `2^24` and whose
second line has a coordinate one above the largest `int`. -/
def largeCoordinateWorld : World :=
  { sampleWorld with textFile := fun _ => some ["16777217,0,0", "2147483648,0,0"] }

/-- The lines of an object-point file of `2^32 + 4` lines, each `0,0,0`. -/
@[irreducible]
def hugeLines : List String := List.replicate 4294967300 "0,0,0"

/-- The sample run on the object-point file `hugeLines`. -/
def hugeWorld : World := { sampleWorld with textFile := fun _ => some hugeLines }

/-! ## The click collector: proofs -/

/-- Up to magnitude `2^24` the conversion of an `int` to `float` is exact. -/
theorem intToFloat_exact (n : Int) (h : n.natAbs ≤ 16777216) : intToFloat n = (n : ℚ) := by
  simp [intToFloat, h]

theorem point2f_ofInt_exact (x y : Int) (hx : x.natAbs ≤ 16777216) (hy : y.natAbs ≤ 16777216) :
    Point2f.ofInt x y = ⟨(x : ℚ), (y : ℚ)⟩ := by
  simp [Point2f.ofInt, intToFloat_exact, hx, hy]

theorem point3f_ofInt_exact (x y z : Int) (hx : x.natAbs ≤ 16777216)
    (hy : y.natAbs ≤ 16777216) (hz : z.natAbs ≤ 16777216) :
    Point3f.ofInt x y z = ⟨(x : ℚ), (y : ℚ), (z : ℚ)⟩ := by
  simp [Point3f.ofInt, intToFloat_exact, hx, hy, hz]

theorem toSizeT_natCast (n : Nat) (h : n < 18446744073709551616) : toSizeT (n : Int) = n := by
  unfold toSizeT
  have h1 : ((n : Int) % 18446744073709551616) = (n : Int) :=
    Int.emod_eq_of_lt (Int.ofNat_nonneg n) (by exact_mod_cast h)
  rw [h1]
  exact Int.toNat_natCast n

theorem onMouse_other (g : Globals) (e : MouseEvent) (he : e.event ≠ EVENT_LBUTTONDOWN) :
    onMouse g e = some g := by
  simp [onMouse, he]

theorem onMouse_full (g : Globals) (e : MouseEvent) (pts : List Point2f)
    (hp : g.s_clickedPoints = some pts) (hfull : g.s_maxClickedCount ≤ pts.length) :
    onMouse g e = some g := by
  unfold onMouse
  split
  · simp [hp, hfull]
  · rfl

theorem onMouse_accept (g : Globals) (e : MouseEvent) (pts : List Point2f)
    (hp : g.s_clickedPoints = some pts) (he : e.event = EVENT_LBUTTONDOWN)
    (hroom : pts.length < g.s_maxClickedCount) :
    onMouse g e = some { g with
      s_clickedPoints := some (pts ++ [Point2f.ofInt e.x e.y])
      s_shownImage := drawCross g.s_shownImage (Point2f.ofInt e.x e.y) ⟨0, 0, 255⟩ 7 2 } := by
  simp [onMouse, he, hp, Nat.not_le.mpr hroom]

theorem leftClicks_cons_other (e : MouseEvent) (es : List MouseEvent)
    (he : e.event ≠ EVENT_LBUTTONDOWN) : leftClicks (e :: es) = leftClicks es := by
  simp [leftClicks, List.filter_cons, he]

theorem leftClicks_cons_left (e : MouseEvent) (es : List MouseEvent)
    (he : e.event = EVENT_LBUTTONDOWN) :
    leftClicks (e :: es) = Point2f.ofInt e.x e.y :: leftClicks es := by
  simp [leftClicks, List.filter_cons, he]

/-- The event loop of the collector: from a non-null vector with at most
`s_maxClickedCount` points it never aborts, keeps the target count, and appends the
left clicks in order until the vector holds `s_maxClickedCount` points. -/
theorem waitKey_collects (es : List MouseEvent) :
    ∀ (g : Globals) (pts : List Point2f), g.s_clickedPoints = some pts →
      pts.length ≤ g.s_maxClickedCount →
      ∃ g1, waitKey g es = some g1 ∧ g1.s_maxClickedCount = g.s_maxClickedCount ∧
        g1.s_shownWindowName = g.s_shownWindowName ∧
        g1.s_clickedPoints =
          some (pts ++ (leftClicks es).take (g.s_maxClickedCount - pts.length)) := by
  induction es with
  | nil =>
    intro g pts hp _
    exact ⟨g, rfl, rfl, rfl, by simp [leftClicks, hp]⟩
  | cons e es ih =>
    intro g pts hp hle
    by_cases he : e.event = EVENT_LBUTTONDOWN
    · by_cases hroom : pts.length < g.s_maxClickedCount
      · obtain ⟨g1, h1, h2, h3, h4⟩ := ih
          { g with
            s_clickedPoints := some (pts ++ [Point2f.ofInt e.x e.y])
            s_shownImage := drawCross g.s_shownImage (Point2f.ofInt e.x e.y) ⟨0, 0, 255⟩ 7 2 }
          (pts ++ [Point2f.ofInt e.x e.y]) rfl (by simpa using hroom)
        refine ⟨g1, ?_, h2, h3, ?_⟩
        · simp only [waitKey, onMouse_accept g e pts hp he hroom]
          exact h1
        · rw [h4, leftClicks_cons_left e es he]
          have hsub : g.s_maxClickedCount - pts.length
              = (g.s_maxClickedCount - (pts.length + 1)) + 1 := by omega
          simp only [List.length_append, List.length_singleton]
          rw [hsub, List.take_succ_cons]
          simp
      · have hfull : g.s_maxClickedCount ≤ pts.length := Nat.le_of_not_lt hroom
        obtain ⟨g1, h1, h2, h3, h4⟩ := ih g pts hp hle
        refine ⟨g1, ?_, h2, h3, ?_⟩
        · simp only [waitKey, onMouse_full g e pts hp hfull]
          exact h1
        · rw [h4]
          have hz : g.s_maxClickedCount - pts.length = 0 := by omega
          simp [hz]
    · obtain ⟨g1, h1, h2, h3, h4⟩ := ih g pts hp hle
      refine ⟨g1, ?_, h2, h3, ?_⟩
      · simp only [waitKey, onMouse_other g e he]
        exact h1
      · rw [h4, leftClicks_cons_other e es he]

/-- The collector on a readable picture and an empty vector, for any `numPoints`:
it returns, the vector then holds the first `s_maxClickedCount` left clicks, and the
result is `true` exactly when that many left clicks occurred. -/
theorem readImagePoints_readable (w : World) (g : Globals) (filename : String)
    (numPoints : Int) (himg : w.imread filename = true) :
    ∃ r, readImagePoints w g filename numPoints [] = some r ∧
      r.imagePoints = (leftClicks w.collectEvents).take (toSizeT numPoints) ∧
      (r.ok = true ↔ toSizeT numPoints ≤ (leftClicks w.collectEvents).length) ∧
      r.globals.s_clickedPoints = (if r.ok then none else some r.imagePoints) := by
  obtain ⟨g1, h1, h2, _, h4⟩ := waitKey_collects w.collectEvents
    { s_shownWindowName := filename, s_shownImage := some [],
      s_maxClickedCount := toSizeT numPoints, s_clickedPoints := some [] } [] rfl
    (Nat.zero_le _)
  simp only [List.length_nil, Nat.sub_zero, List.nil_append] at h2 h4
  by_cases hlt : ((leftClicks w.collectEvents).take (toSizeT numPoints)).length
      < toSizeT numPoints
  · refine ⟨⟨false, (leftClicks w.collectEvents).take (toSizeT numPoints), g1⟩, ?_, rfl, ?_, ?_⟩
    · have hlt1 := hlt
      simp only [List.length_take] at hlt1
      have hlt2 : (leftClicks w.collectEvents).length < toSizeT numPoints := by omega
      simp [readImagePoints, himg, h1, h4, h2, hlt2]
    · simp only [List.length_take] at hlt
      constructor
      · intro h; cases h
      · intro h; omega
    · simp [h4]
  · refine ⟨⟨true, (leftClicks w.collectEvents).take (toSizeT numPoints),
      { g1 with s_clickedPoints := none }⟩, ?_, rfl, ?_, ?_⟩
    · have hlt1 := hlt
      simp only [List.length_take] at hlt1
      have hlt2 : toSizeT numPoints ≤ (leftClicks w.collectEvents).length := by omega
      simp [readImagePoints, himg, h1, h4, h2, hlt2]
    · simp only [List.length_take] at hlt
      constructor
      · intro _; omega
      · intro _; rfl
    · simp

theorem readImagePoints_unreadable (w : World) (g : Globals) (filename : String)
    (numPoints : Int) (imagePoints : List Point2f) (himg : w.imread filename = false) :
    ∃ g1, readImagePoints w g filename numPoints imagePoints = some ⟨false, imagePoints, g1⟩ := by
  simp [readImagePoints, himg]

/-- C1: with a readable picture and a target count `N` (an `int`, hence below `2^31`),
starting from an empty vector, `readImagePoints` returns for every event sequence;
it reports success exactly when at least `N` left clicks occurred (equivalently,
when `N` clicks were accepted into the vector), it reports failure when fewer than
`N` occurred, and on success the vector holds exactly `N` points, the points
`cv::Point2f(x, y)` of the first `N` left clicks in click order; such a point has
exactly the click's coordinates when these are within `2^24` in magnitude (a
`cv::Point2f` holds `float`s). -/
theorem readImagePoints_success_iff (w : World) (g : Globals) (filename : String) (N : Nat)
    (hN : N < 2147483648) (himg : w.imread filename = true) :
    ∃ r, readImagePoints w g filename (N : Int) [] = some r ∧
      (r.ok = true ↔ N ≤ (leftClicks w.collectEvents).length) ∧
      (r.ok = true ↔ N ≤ r.imagePoints.length) ∧
      ((leftClicks w.collectEvents).length < N → r.ok = false) ∧
      (r.ok = true →
        r.imagePoints.length = N ∧ r.imagePoints = (leftClicks w.collectEvents).take N) ∧
      (∀ e : MouseEvent, e.x.natAbs ≤ 16777216 → e.y.natAbs ≤ 16777216 →
        Point2f.ofInt e.x e.y = ⟨(e.x : ℚ), (e.y : ℚ)⟩) := by
  obtain ⟨r, h1, h2, h3, _⟩ := readImagePoints_readable w g filename (N : Int) himg
  rw [toSizeT_natCast N (by omega)] at h2 h3
  refine ⟨r, h1, h3, ?_, ?_, ?_, fun e hx hy => point2f_ofInt_exact e.x e.y hx hy⟩
  · rw [h3, h2, List.length_take]
    omega
  · intro hlt
    cases hok : r.ok with
    | false => rfl
    | true => have := h3.mp hok; omega
  · intro hok
    have := h3.mp hok
    refine ⟨?_, h2⟩
    rw [h2, List.length_take]
    omega

/-- C2: `onMouse` as the step function of the collector.  With the vector at `pts`:
a left click below the target count appends exactly `cv::Point2f(x, y)` of that click
as the last point (earlier points unchanged, count one higher), which is the point
with exactly the coordinates `(x, y)` of the click when these are within `2^24` in
magnitude (a `cv::Point2f` holds `float`s); a left click at or
above the target count changes nothing; an event that is not a left click changes
nothing; and from a count not above the target, no event sequence takes the count
above it (nor changes the target). -/
theorem onMouse_two_state_machine (g : Globals) (pts : List Point2f)
    (hp : g.s_clickedPoints = some pts) :
    (∀ e : MouseEvent, e.event = EVENT_LBUTTONDOWN → pts.length < g.s_maxClickedCount →
      ∃ g1 pts1, onMouse g e = some g1 ∧ g1.s_clickedPoints = some pts1 ∧
        pts1 = pts ++ [Point2f.ofInt e.x e.y] ∧
        (e.x.natAbs ≤ 16777216 → e.y.natAbs ≤ 16777216 →
          pts1 = pts ++ [⟨(e.x : ℚ), (e.y : ℚ)⟩]) ∧
        pts1.length = pts.length + 1 ∧
        g1.s_maxClickedCount = g.s_maxClickedCount) ∧
    (∀ e : MouseEvent, e.event = EVENT_LBUTTONDOWN → g.s_maxClickedCount ≤ pts.length →
      onMouse g e = some g) ∧
    (∀ e : MouseEvent, e.event ≠ EVENT_LBUTTONDOWN → onMouse g e = some g) ∧
    (pts.length ≤ g.s_maxClickedCount → ∀ es : List MouseEvent,
      ∃ g1 pts1, waitKey g es = some g1 ∧ g1.s_clickedPoints = some pts1 ∧
        pts1.length ≤ g.s_maxClickedCount ∧ g1.s_maxClickedCount = g.s_maxClickedCount) := by
  refine ⟨?_, ?_, ?_, ?_⟩
  · intro e he hroom
    exact ⟨_, _, onMouse_accept g e pts hp he hroom, rfl, rfl,
      fun hx hy => by rw [point2f_ofInt_exact e.x e.y hx hy], by simp, rfl⟩
  · intro e _ hfull
    exact onMouse_full g e pts hp hfull
  · intro e he
    exact onMouse_other g e he
  · intro hle es
    obtain ⟨g1, h1, h2, _, h4⟩ := waitKey_collects es g pts hp hle
    refine ⟨g1, _, h1, h4, ?_, h2⟩
    simp only [List.length_append, List.length_take]
    omega

/-! ## The camera-parameter loader: proofs -/

theorem readNode_absent (nodes : List (String × Mat)) (name : String)
    (h : nodes.find? (fun n => n.1 == name) = none) : readNode nodes name = Mat.empty := by
  simp [readNode, h]

/-- C9: `readCameraParameters` reports success exactly when the source opened and
the matrices read for `intrinsic` and for `distortion` both have a non-zero element
count; it reports failure when the source does not open, when either field is absent,
and when either field is empty.  On an opened source the outputs are the two fields
read. -/
theorem readCameraParameters_success_iff (w : World) (filename : String)
    (intrinsic distortion : Mat) :
    ((readCameraParameters w filename intrinsic distortion).1 = true ↔
      ∃ nodes, w.storage filename = some nodes ∧
        (readNode nodes "intrinsic").total ≠ 0 ∧ (readNode nodes "distortion").total ≠ 0) ∧
    (w.storage filename = none →
      readCameraParameters w filename intrinsic distortion = (false, intrinsic, distortion)) ∧
    (∀ nodes, w.storage filename = some nodes →
      (nodes.find? (fun n => n.1 == "intrinsic") = none ∨
        nodes.find? (fun n => n.1 == "distortion") = none) →
      (readCameraParameters w filename intrinsic distortion).1 = false) ∧
    (∀ nodes, w.storage filename = some nodes →
      ((readNode nodes "intrinsic").total = 0 ∨ (readNode nodes "distortion").total = 0) →
      (readCameraParameters w filename intrinsic distortion).1 = false) ∧
    (∀ nodes, w.storage filename = some nodes →
      (readCameraParameters w filename intrinsic distortion).2 =
        (readNode nodes "intrinsic", readNode nodes "distortion")) := by
  have hzero : ∀ nodes, w.storage filename = some nodes →
      ((readNode nodes "intrinsic").total = 0 ∨ (readNode nodes "distortion").total = 0) →
      (readCameraParameters w filename intrinsic distortion).1 = false := by
    intro nodes hs h
    rcases h with h | h <;> simp [readCameraParameters, hs, h]
  refine ⟨?_, ?_, ?_, hzero, ?_⟩
  · cases hs : w.storage filename with
    | none => simp [readCameraParameters, hs]
    | some nodes => simp [readCameraParameters, hs]
  · intro hs
    simp [readCameraParameters, hs]
  · intro nodes hs h
    apply hzero nodes hs
    rcases h with h | h
    · left; rw [readNode_absent nodes _ h]; rfl
    · right; rw [readNode_absent nodes _ h]; rfl
  · intro nodes hs
    simp [readCameraParameters, hs]

/-! ## The object-point loader: proofs -/

theorem digitChar_isdigit (d : Fin 10) : isdigit (digitChar d) = true := by
  revert d; decide

theorem digitChar_val (d : Fin 10) : (digitChar d).toNat - 48 = d.val := by
  revert d; decide

theorem digitChar_not_space (d : Fin 10) : isspace (digitChar d) = false := by
  revert d; decide

theorem digitChar_not_nul (d : Fin 10) : (digitChar d).toNat ≠ 0 := by
  revert d; decide

theorem scanSign_digit (d : Fin 10) (r : List Char) :
    scanSign (digitChar d :: r) = (false, digitChar d :: r) := by
  fin_cases d <;> rfl

theorem digitsValue_foldl (ds : List (Fin 10)) :
    ∀ acc : Nat, (ds.map digitChar).foldl (fun acc c => acc * 10 + (c.toNat - 48)) acc
      = acc * 10 ^ ds.length + Nat.ofDigits 10 (ds.reverse.map Fin.val) := by
  induction ds with
  | nil => intro acc; simp
  | cons d ds ih =>
    intro acc
    simp only [List.map_cons, List.foldl_cons, ih, digitChar_val, List.reverse_cons,
      List.map_append, List.map_nil, List.length_cons, Nat.ofDigits_append,
      Nat.ofDigits_singleton, List.length_map, List.length_reverse]
    ring

theorem digitsValue_digits (ds : List (Fin 10)) :
    digitsValue (ds.map digitChar) = Nat.ofDigits 10 (ds.reverse.map Fin.val) := by
  unfold digitsValue
  rw [digitsValue_foldl ds 0]
  simp

/-- No digit follows: the input is at its end or its next character is not a digit. -/
theorem takeWhile_digits (ds : List (Fin 10)) (rest : List Char)
    (hrest : ∀ c ∈ rest.head?, isdigit c = false) :
    (ds.map digitChar ++ rest).takeWhile isdigit = ds.map digitChar ∧
    (ds.map digitChar ++ rest).dropWhile isdigit = rest := by
  induction ds with
  | nil =>
    cases rest with
    | nil => simp
    | cons c r =>
      have hc : isdigit c = false := hrest c (by simp)
      simp [hc]
  | cons d ds ih =>
    simp [digitChar_isdigit, ih.1, ih.2]

theorem toInt32_clampLong (v : Int) (hlo : -2147483648 ≤ v) (hhi : v ≤ 2147483647) :
    toInt32 (clampLong v) = v := by
  unfold toInt32 clampLong
  split_ifs <;> omega


theorem scanInt_unsigned (d : Fin 10) (ds : List (Fin 10)) (rest : List Char)
    (hrest : ∀ c ∈ rest.head?, isdigit c = false) (neg : Bool) (pre : List Char)
    (hpre : scanSign ((pre ++ ((d :: ds).map digitChar ++ rest)).dropWhile isspace)
      = (neg, (d :: ds).map digitChar ++ rest)) :
    scanInt (pre ++ ((d :: ds).map digitChar ++ rest)) =
      some (toInt32 (clampLong (if neg then
          -((Nat.ofDigits 10 ((d :: ds).reverse.map Fin.val) : Nat) : Int)
        else ((Nat.ofDigits 10 ((d :: ds).reverse.map Fin.val) : Nat) : Int))), rest) := by
  have htd := takeWhile_digits (d :: ds) rest hrest
  have hval := digitsValue_digits (d :: ds)
  unfold scanInt
  simp only [hpre, htd.1, htd.2, hval]
  simp

/-- A `%d` directive on a literal followed by something that is not a digit reads
exactly the literal and yields its value. -/
theorem scanInt_literal (l : IntLiteral) (hl : l.IsInt) (rest : List Char)
    (hrest : ∀ c ∈ rest.head?, isdigit c = false) :
    scanInt (l.text ++ rest) = some (l.value, rest) := by
  obtain ⟨sign, digits⟩ := l
  obtain ⟨hne, hlo, hhi⟩ := hl
  simp only at hne
  obtain ⟨d, ds, rfl⟩ := List.exists_cons_of_ne_nil hne
  rcases sign with _ | _ | _
  · have h := scanInt_unsigned d ds rest hrest false [] (by
      simp [digitChar_not_space, scanSign_digit])
    simp only [IntLiteral.value] at hlo hhi
    simp only [IntLiteral.text, IntLiteral.value]
    rw [List.append_assoc, h]
    simp only [Bool.false_eq_true, if_false]
    rw [toInt32_clampLong _ (by simpa using hlo) (by simpa using hhi)]
    simp
  · have h := scanInt_unsigned d ds rest hrest false ['+'] (by
      have : isspace '+' = false := by decide
      simp [this, scanSign])
    simp only [IntLiteral.value] at hlo hhi
    simp only [IntLiteral.text, IntLiteral.value]
    rw [List.append_assoc, h]
    simp only [Bool.false_eq_true, if_false]
    rw [toInt32_clampLong _ (by simpa using hlo) (by simpa using hhi)]
    simp
  · have h := scanInt_unsigned d ds rest hrest true ['-'] (by
      have : isspace '-' = false := by decide
      simp [this, scanSign])
    simp only [IntLiteral.value] at hlo hhi
    simp only [IntLiteral.text, IntLiteral.value]
    rw [List.append_assoc, h]
    simp only [if_true]
    rw [toInt32_clampLong _ (by simpa using hlo) (by simpa using hhi)]

theorem scanInt_some_not_at_end (s : List Char) (p : Int × List Char)
    (h : scanInt s = some p) : (s.dropWhile isspace).isEmpty = false := by
  cases hd : s.dropWhile isspace with
  | nil => simp [scanInt, hd, scanSign] at h
  | cons c r => rfl

theorem text_not_nul (l : IntLiteral) : ∀ c ∈ l.text, c.toNat ≠ 0 := by
  intro c hc
  obtain ⟨sign, digits⟩ := l
  simp only [IntLiteral.text, List.mem_append, List.mem_map] at hc
  rcases hc with hc | ⟨d, _, rfl⟩
  · rcases sign with _ | _ | _
    · simp at hc
    · simp only [List.mem_singleton] at hc; subst hc; decide
    · simp only [List.mem_singleton] at hc; subst hc; decide
  · exact digitChar_not_nul d

theorem c_str_tripleLine (f : IntLiteral × IntLiteral × IntLiteral) :
    c_str (tripleLine f) = f.1.text ++ ',' :: (f.2.1.text ++ ',' :: f.2.2.text) := by
  unfold c_str tripleLine
  apply List.takeWhile_eq_self_iff.mpr
  intro c hc
  have hcomma : (',' : Char).toNat ≠ 0 := by decide
  simp only [List.mem_append, List.mem_cons] at hc
  have : c.toNat ≠ 0 := by
    rcases hc with hc | rfl | hc | rfl | hc
    · exact text_not_nul _ c hc
    · exact hcomma
    · exact text_not_nul _ c hc
    · exact hcomma
    · exact text_not_nul _ c hc
  simpa using this

/-- The scan of a line `x,y,z` assigns all three items, whatever the variables held. -/
theorem sscanf_tripleLine (f : IntLiteral × IntLiteral × IntLiteral)
    (hx : f.1.IsInt) (hy : f.2.1.IsInt) (hz : f.2.2.IsInt) (x y z : Int) :
    sscanf (c_str (tripleLine f)) x y z = (3, f.1.value, f.2.1.value, f.2.2.value) := by
  have hcomma : ∀ r : List Char, ∀ c ∈ (',' :: r).head?, isdigit c = false := by
    intro r c hc
    simp only [List.head?_cons, Option.mem_def, Option.some.injEq] at hc
    subst hc
    decide
  have h1 := scanInt_literal f.1 hx _ (hcomma (f.2.1.text ++ ',' :: f.2.2.text))
  have h2 := scanInt_literal f.2.1 hy _ (hcomma f.2.2.text)
  have h3 := scanInt_literal f.2.2 hz [] (by simp)
  rw [List.append_nil] at h3
  rw [c_str_tripleLine]
  unfold sscanf
  rw [if_neg (by rw [scanInt_some_not_at_end _ _ h1]; simp)]
  simp only [h1, scanComma, h2, h3]

theorem readLines_tripleLines (w : World)
    (fields : List (IntLiteral × IntLiteral × IntLiteral))
    (hwf : ∀ f ∈ fields, f.1.IsInt ∧ f.2.1.IsInt ∧ f.2.2.IsInt) :
    ∀ (i : Nat) (objectPoints : List Point3f),
      readLines w i (fields.map tripleLine) objectPoints
        = objectPoints ++ fields.map triplePoint := by
  induction fields with
  | nil => intro i objectPoints; simp [readLines]
  | cons f fs ih =>
    intro i objectPoints
    obtain ⟨hx, hy, hz⟩ := hwf f (by simp)
    have hrest : ∀ f1 ∈ fs, f1.1.IsInt ∧ f1.2.1.IsInt ∧ f1.2.2.IsInt :=
      fun f1 h1 => hwf f1 (by simp [h1])
    simp only [List.map_cons, readLines, scanLine, sscanf_tripleLine f hx hy hz, ih hrest]
    simp [triplePoint]

/-- C7 (as the code has it): on a source that opens and whose every line is `x,y,z`, three decimal integer
literals an `int` holds, `readObjectPoints` succeeds and appends, in line order,
exactly one point per line, the point `cv::Point3f(x, y, z)` of that line; on a source
that does not open it reports failure and leaves the output vector as it was.  The
point has exactly the coordinates `x`, `y`, `z` when these are within `2^24` in
magnitude (a `cv::Point3f` holds `float`s). -/
theorem readObjectPoints_wellformed (w : World) (filename : String)
    (objectPoints : List Point3f) :
    (∀ fields : List (IntLiteral × IntLiteral × IntLiteral),
      (∀ f ∈ fields, f.1.IsInt ∧ f.2.1.IsInt ∧ f.2.2.IsInt) →
      w.textFile filename = some (fields.map tripleLine) →
      readObjectPoints w filename objectPoints
        = (true, objectPoints ++ fields.map triplePoint)) ∧
    (w.textFile filename = none →
      readObjectPoints w filename objectPoints = (false, objectPoints)) ∧
    (∀ f : IntLiteral × IntLiteral × IntLiteral, f.1.value.natAbs ≤ 16777216 →
      f.2.1.value.natAbs ≤ 16777216 → f.2.2.value.natAbs ≤ 16777216 →
      triplePoint f = ⟨(f.1.value : ℚ), (f.2.1.value : ℚ), (f.2.2.value : ℚ)⟩) := by
  refine ⟨?_, ?_, ?_⟩
  · intro fields hwf hfile
    simp only [readObjectPoints, hfile, readLines_tripleLines w fields hwf 0 objectPoints]
  · intro hfile
    simp only [readObjectPoints, hfile]
  · intro f hx hy hz
    exact point3f_ofInt_exact _ _ _ hx hy hz

/-! ## The pipeline: proofs -/

/-- With `s_clickedPoints` at `NULL`, the event loop aborts at the first left click
and otherwise changes nothing. -/
theorem waitKey_null (es : List MouseEvent) (g : Globals) (hnull : g.s_clickedPoints = none) :
    ((∀ e ∈ es, e.event ≠ EVENT_LBUTTONDOWN) → waitKey g es = some g) ∧
    ((∃ e ∈ es, e.event = EVENT_LBUTTONDOWN) → waitKey g es = none) := by
  induction es with
  | nil => simp [waitKey]
  | cons e es ih =>
    by_cases he : e.event = EVENT_LBUTTONDOWN
    · constructor
      · intro h
        exact absurd he (h e (by simp))
      · intro _
        simp [waitKey, onMouse, he, hnull]
    · constructor
      · intro h
        simp only [waitKey, onMouse_other g e he]
        exact ih.1 (fun e1 h1 => h e1 (by simp [h1]))
      · rintro ⟨e1, h1, h2⟩
        simp only [waitKey, onMouse_other g e he]
        apply ih.2
        rcases List.mem_cons.mp h1 with rfl | h1
        · exact absurd h2 he
        · exact ⟨e1, h1, h2⟩

theorem evaluateImagePoints_null (w : World) (g : Globals) (points reprojected : List Point2f)
    (hnull : g.s_clickedPoints = none) :
    ((∀ e ∈ w.reviewEvents, e.event ≠ EVENT_LBUTTONDOWN) →
      ∃ g1, evaluateImagePoints w g points reprojected = some g1) ∧
    ((∃ e ∈ w.reviewEvents, e.event = EVENT_LBUTTONDOWN) →
      evaluateImagePoints w g points reprojected = none) := by
  unfold evaluateImagePoints
  constructor
  · intro h
    exact ⟨_, (waitKey_null w.reviewEvents _ (by simpa using hnull)).1 h⟩
  · intro h
    exact (waitKey_null w.reviewEvents _ (by simpa using hnull)).2 h

/-- Every run of `estimateCameraPosition` is one of seven: the object-point loader
fails; the collector fails (unreadable picture or too few left clicks); the
camera-parameter loader fails; the solver throws; a left click during the evaluation
display aborts the process; or everything returns. -/
theorem estimate_cases (w : World) (g : Globals) (obj img cam : String) (rvec tvec : Mat)
    (ops : List Point3f) (ips : List Point2f) (cp : Bool × Mat × Mat)
    (hops : ops = (readObjectPoints w obj []).2)
    (hips : ips = (leftClicks w.collectEvents).take (toSizeT (toInt32 ops.length)))
    (hcp : cp = readCameraParameters w cam Mat.empty Mat.empty) :
    ((readObjectPoints w obj []).1 = false ∧
      estimateCameraPosition w g obj img cam rvec tvec
        = ⟨[⟨.readObjectPoints, false⟩], none, some false, rvec, tvec⟩) ∨
    ((readObjectPoints w obj []).1 = true ∧
      (w.imread img = false ∨
        (leftClicks w.collectEvents).length < toSizeT (toInt32 ops.length)) ∧
      estimateCameraPosition w g obj img cam rvec tvec
        = ⟨[⟨.readObjectPoints, true⟩, ⟨.readImagePoints, false⟩], none, some false,
            rvec, tvec⟩) ∨
    ((readObjectPoints w obj []).1 = true ∧ w.imread img = true ∧
      toSizeT (toInt32 ops.length) ≤ (leftClicks w.collectEvents).length ∧
      ((cp.1 = false ∧
        estimateCameraPosition w g obj img cam rvec tvec
          = ⟨[⟨.readObjectPoints, true⟩, ⟨.readImagePoints, true⟩,
              ⟨.readCameraParameters, false⟩], none, some false, rvec, tvec⟩) ∨
      (cp.1 = true ∧ w.solvePnP ops ips cp.2.1 cp.2.2 = none ∧
        estimateCameraPosition w g obj img cam rvec tvec
          = ⟨[⟨.readObjectPoints, true⟩, ⟨.readImagePoints, true⟩,
              ⟨.readCameraParameters, true⟩, ⟨.solvePnP, false⟩], some (ops, ips), none,
              rvec, tvec⟩) ∨
      (cp.1 = true ∧ ∃ pose, w.solvePnP ops ips cp.2.1 cp.2.2 = some pose ∧
        (((∃ e ∈ w.reviewEvents, e.event = EVENT_LBUTTONDOWN) ∧
          estimateCameraPosition w g obj img cam rvec tvec
            = ⟨[⟨.readObjectPoints, true⟩, ⟨.readImagePoints, true⟩,
                ⟨.readCameraParameters, true⟩, ⟨.solvePnP, true⟩, ⟨.projectPoints, true⟩,
                ⟨.evaluateImagePoints, false⟩], some (ops, ips), none, pose.1, pose.2⟩) ∨
        ((∀ e ∈ w.reviewEvents, e.event ≠ EVENT_LBUTTONDOWN) ∧
          estimateCameraPosition w g obj img cam rvec tvec
            = ⟨[⟨.readObjectPoints, true⟩, ⟨.readImagePoints, true⟩,
                ⟨.readCameraParameters, true⟩, ⟨.solvePnP, true⟩, ⟨.projectPoints, true⟩,
                ⟨.evaluateImagePoints, true⟩], some (ops, ips), some true,
                pose.1, pose.2⟩))))) := by
  subst hcp
  subst hips
  subst hops
  cases hrop : (readObjectPoints w obj []).1 with
  | false =>
    left
    exact ⟨rfl, by simp [estimateCameraPosition, hrop]⟩
  | true =>
    right
    cases himg : w.imread img with
    | false =>
      left
      obtain ⟨g1, h1⟩ := readImagePoints_unreadable w g img
        (toInt32 ((readObjectPoints w obj []).2.length : Nat)) [] himg
      refine ⟨rfl, Or.inl rfl, ?_⟩
      simp [estimateCameraPosition, hrop, h1]
    | true =>
      obtain ⟨r, h1, h2, h3, h4⟩ := readImagePoints_readable w g img
        (toInt32 ((readObjectPoints w obj []).2.length : Nat)) himg
      cases hok : r.ok with
      | false =>
        left
        refine ⟨rfl, Or.inr ?_, ?_⟩
        · by_contra hcon
          have := h3.mpr (Nat.le_of_not_lt hcon)
          rw [hok] at this
          cases this
        · simp [estimateCameraPosition, hrop, h1, hok]
      | true =>
        right
        refine ⟨rfl, rfl, h3.mp hok, ?_⟩
        rw [hok] at h4
        simp only [if_true] at h4
        cases hcp1 : (readCameraParameters w cam Mat.empty Mat.empty).1 with
        | false =>
          left
          refine ⟨rfl, ?_⟩
          simp [estimateCameraPosition, hrop, h1, hok, hcp1]
        | true =>
          right
          cases hs : w.solvePnP (readObjectPoints w obj []).2
              ((leftClicks w.collectEvents).take
                (toSizeT (toInt32 ((readObjectPoints w obj []).2.length : Nat))))
              (readCameraParameters w cam Mat.empty Mat.empty).2.1
              (readCameraParameters w cam Mat.empty Mat.empty).2.2 with
          | none =>
            left
            refine ⟨rfl, rfl, ?_⟩
            simp [estimateCameraPosition, hrop, h1, hok, hcp1, h2, hs]
          | some pose =>
            right
            refine ⟨rfl, pose, rfl, ?_⟩
            by_cases hclick : ∃ e ∈ w.reviewEvents, e.event = EVENT_LBUTTONDOWN
            · left
              refine ⟨hclick, ?_⟩
              have hev := fun p q => (evaluateImagePoints_null w r.globals p q h4).2 hclick
              simp [estimateCameraPosition, hrop, h1, hok, hcp1, h2, hs, hev]
            · right
              have hno : ∀ e ∈ w.reviewEvents, e.event ≠ EVENT_LBUTTONDOWN :=
                fun e he hc => hclick ⟨e, he, hc⟩
              refine ⟨hno, ?_⟩
              obtain ⟨g2, hev⟩ := (evaluateImagePoints_null w r.globals
                ((leftClicks w.collectEvents).take
                  (toSizeT (toInt32 ((readObjectPoints w obj []).2.length : Nat))))
                (w.projectPoints (readObjectPoints w obj []).2 pose.1 pose.2
                  (readCameraParameters w cam Mat.empty Mat.empty).2.1
                  (readCameraParameters w cam Mat.empty Mat.empty).2.2) h4).1 hno
              simp [estimateCameraPosition, hrop, h1, hok, hcp1, h2, hs, hev]

theorem toSizeT_toInt32 (n : Nat) (h : n < 2147483648) : toSizeT (toInt32 (n : Int)) = n := by
  have h1 : toInt32 (n : Int) = (n : Int) := by
    unfold toInt32
    omega
  rw [h1]
  exact toSizeT_natCast n (by omega)

/-- C3 (as the code has it): when the object points number fewer than `2^31` (their
count is handed to the collector as an `int`), every run of `estimateCameraPosition` that invokes the solver
passes it the loaded object points and an image-point sequence of exactly the same
length; the solver's input is recorded exactly when the solver appears in the trace;
and a run with fewer left clicks than object points never reaches the solver. -/
theorem solver_input_lengths_agree (w : World) (g : Globals) (obj img cam : String)
    (rvec tvec : Mat) (hsize : (readObjectPoints w obj []).2.length < 2147483648) :
    (∀ ops ips, (estimateCameraPosition w g obj img cam rvec tvec).solverInput
        = some (ops, ips) →
      ops = (readObjectPoints w obj []).2 ∧ ips.length = ops.length) ∧
    ((∃ c ∈ (estimateCameraPosition w g obj img cam rvec tvec).trace, c.stage = .solvePnP) ↔
      (estimateCameraPosition w g obj img cam rvec tvec).solverInput ≠ none) ∧
    ((leftClicks w.collectEvents).length < (readObjectPoints w obj []).2.length →
      (estimateCameraPosition w g obj img cam rvec tvec).solverInput = none ∧
      ∀ c ∈ (estimateCameraPosition w g obj img cam rvec tvec).trace,
        c.stage ≠ .solvePnP) := by
  have hn := toSizeT_toInt32 _ hsize
  rcases estimate_cases w g obj img cam rvec tvec _ _ _ rfl rfl rfl with
    ⟨_, hE⟩ | ⟨_, _, hE⟩ | ⟨_, _, hclicks, ⟨_, hE⟩ | ⟨_, _, hE⟩ | ⟨_, pose, _, ⟨_, hE⟩ | ⟨_, hE⟩⟩⟩
  · simp [hE]
  · simp [hE]
  · simp [hE]
  · rw [hn] at hclicks hE
    simp only [hE]
    refine ⟨?_, by simp, ?_⟩
    · intro ops ips h
      simp only [Option.some.injEq, Prod.mk.injEq] at h
      obtain ⟨rfl, rfl⟩ := h
      exact ⟨rfl, by rw [List.length_take]; omega⟩
    · intro h; omega
  · rw [hn] at hclicks hE
    simp only [hE]
    refine ⟨?_, by simp, ?_⟩
    · intro ops ips h
      simp only [Option.some.injEq, Prod.mk.injEq] at h
      obtain ⟨rfl, rfl⟩ := h
      exact ⟨rfl, by rw [List.length_take]; omega⟩
    · intro h; omega
  · rw [hn] at hclicks hE
    simp only [hE]
    refine ⟨?_, by simp, ?_⟩
    · intro ops ips h
      simp only [Option.some.injEq, Prod.mk.injEq] at h
      obtain ⟨rfl, rfl⟩ := h
      exact ⟨rfl, by rw [List.length_take]; omega⟩
    · intro h; omega

/-- C4 (as the code has it): `estimateCameraPosition` makes no check of the number of
object points.  With fewer than four of them it reports failure only when the
object-point loader, the collector (unreadable picture, or fewer left clicks than
object points) or the camera-parameter loader fails; when all three succeed the
solver is invoked on the loaded points and as many image points, and if the solver
returns and no left click interrupts the evaluation display, the function reports
success with the solver's pose. -/
theorem estimateCameraPosition_few_points (w : World) (g : Globals) (obj img cam : String)
    (rvec tvec : Mat) (hfew : (readObjectPoints w obj []).2.length < 4) :
    ((estimateCameraPosition w g obj img cam rvec tvec).result = some false ↔
      ((readObjectPoints w obj []).1 = false ∨ w.imread img = false ∨
        (leftClicks w.collectEvents).length < (readObjectPoints w obj []).2.length ∨
        (readCameraParameters w cam Mat.empty Mat.empty).1 = false)) ∧
    ((readObjectPoints w obj []).1 = true → w.imread img = true →
      (readObjectPoints w obj []).2.length ≤ (leftClicks w.collectEvents).length →
      (readCameraParameters w cam Mat.empty Mat.empty).1 = true →
      (estimateCameraPosition w g obj img cam rvec tvec).solverInput
        = some ((readObjectPoints w obj []).2,
            (leftClicks w.collectEvents).take (readObjectPoints w obj []).2.length) ∧
      ∀ pose,
        w.solvePnP (readObjectPoints w obj []).2
          ((leftClicks w.collectEvents).take (readObjectPoints w obj []).2.length)
          (readCameraParameters w cam Mat.empty Mat.empty).2.1
          (readCameraParameters w cam Mat.empty Mat.empty).2.2 = some pose →
        (∀ e ∈ w.reviewEvents, e.event ≠ EVENT_LBUTTONDOWN) →
        (estimateCameraPosition w g obj img cam rvec tvec).result = some true ∧
        (estimateCameraPosition w g obj img cam rvec tvec).rvec = pose.1 ∧
        (estimateCameraPosition w g obj img cam rvec tvec).tvec = pose.2) := by
  have hn := toSizeT_toInt32 (readObjectPoints w obj []).2.length (by omega)
  rcases estimate_cases w g obj img cam rvec tvec _ _ _ rfl rfl rfl with
    ⟨h1, hE⟩ | ⟨h1, h2, hE⟩ |
      ⟨h1, h2, h3, ⟨h4, hE⟩ | ⟨h4, h5, hE⟩ | ⟨h4, pose, h5, ⟨h6, hE⟩ | ⟨h6, hE⟩⟩⟩
  · simp [hE, h1]
  · rw [hn] at h2
    simp only [hE, h1, true_iff, Bool.true_eq_false, false_or]
    refine ⟨?_, ?_⟩
    · rcases h2 with h2 | h2
      · exact Or.inl h2
      · exact Or.inr (Or.inl h2)
    · intro _ himg hclicks _
      rcases h2 with h2 | h2
      · rw [himg] at h2; cases h2
      · omega
  · rw [hn] at h3
    simp [hE, h4]
  · rw [hn] at h3 h5 hE
    constructor
    · simp [hE, h1, h2, h4, h3]
    · intro _ _ _ _
      refine ⟨by rw [hE], ?_⟩
      intro pose hs
      rw [h5] at hs
      cases hs
  · rw [hn] at h3 h5 hE
    obtain ⟨e, he1, he2⟩ := h6
    constructor
    · simp [hE, h1, h2, h4, h3]
    · intro _ _ _ _
      refine ⟨by rw [hE], ?_⟩
      intro pose1 _ hno
      exact absurd he2 (hno e he1)
  · rw [hn] at h3 h5 hE
    constructor
    · simp [hE, h1, h2, h4, h3]
    · intro _ _ _ _
      refine ⟨by rw [hE], ?_⟩
      intro pose1 hs _
      rw [h5] at hs
      cases hs
      rw [hE]
      exact ⟨rfl, rfl, rfl⟩

/-- C5 (the code at the failing input): when `estimateCameraPosition` has returned
`true` and `camera_position.xml` cannot be opened for writing, `main` invokes the
writer, the writer reports failure, nothing is written, and `main` still returns 0. -/
theorem main_exit_zero_when_write_fails (w : World) (argv : List String)
    (hargs : 3 < argv.length)
    (hest : (estimateCameraPosition w Globals.initial (argv.getD 1 "") (argv.getD 2 "")
      (argv.getD 3 "") Mat.empty Mat.empty).result = some true)
    (hwrite : w.writable "camera_position.xml" = false) :
    (writeCameraPosition w "camera_position.xml"
      (estimateCameraPosition w Globals.initial (argv.getD 1 "") (argv.getD 2 "")
        (argv.getD 3 "") Mat.empty Mat.empty).rvec
      (estimateCameraPosition w Globals.initial (argv.getD 1 "") (argv.getD 2 "")
        (argv.getD 3 "") Mat.empty Mat.empty).tvec).1 = false ∧
    (⟨.writeCameraPosition, false⟩ : Call) ∈ (main w argv).trace ∧
    (main w argv).written = none ∧
    (main w argv).exitCode = some 0 := by
  have hlen : ¬ argv.length ≤ 3 := by omega
  unfold main
  rw [if_neg hlen]
  simp only [hest, writeCameraPosition, hwrite]
  simp

theorem last_of_all_but_last_ok (t : List Call) (h : ∀ c ∈ t.dropLast, c.ok = true) :
    ∀ pre c post, t = pre ++ c :: post → c.ok = false → post = [] := by
  intro pre c post ht hc
  by_contra hpost
  have hmem : c ∈ t.dropLast := by
    subst ht
    rw [List.dropLast_append_cons, List.dropLast_cons_of_ne_nil hpost]
    simp
  rw [h c hmem] at hc
  cases hc

/-- C6: the pipeline is fail-fast.  In every run of `main`, a stage that fails is the
last stage invoked.  In particular, when a failed call of the object-point loader,
the collector or the camera-parameter loader is in the trace, then neither the
solver nor the projection, the evaluator or `writeCameraPosition` is invoked, no
position file is written, and the exit code is 1; and each of these failures (the
object-point file not opening, the picture not loading, fewer left clicks than the
target count, the camera parameters not loading) does put such a failed call in the
trace. -/
theorem main_fail_fast (w : World) (argv : List String) :
    (∀ pre c post, (main w argv).trace = pre ++ c :: post → c.ok = false → post = []) ∧
    ((∃ c ∈ (main w argv).trace, c.ok = false ∧
        (c.stage = .readObjectPoints ∨ c.stage = .readImagePoints ∨
          c.stage = .readCameraParameters)) →
      (∀ c ∈ (main w argv).trace, c.stage ≠ .solvePnP ∧ c.stage ≠ .projectPoints ∧
        c.stage ≠ .evaluateImagePoints ∧ c.stage ≠ .writeCameraPosition) ∧
      (main w argv).written = none ∧ (main w argv).exitCode = some 1) ∧
    (3 < argv.length →
      ((readObjectPoints w (argv.getD 1 "") []).1 = false ∨
        w.imread (argv.getD 2 "") = false ∨
        (leftClicks w.collectEvents).length
          < toSizeT (toInt32 (readObjectPoints w (argv.getD 1 "") []).2.length) ∨
        (readCameraParameters w (argv.getD 3 "") Mat.empty Mat.empty).1 = false) →
      ∃ c ∈ (main w argv).trace, c.ok = false ∧
        (c.stage = .readObjectPoints ∨ c.stage = .readImagePoints ∨
          c.stage = .readCameraParameters)) := by
  by_cases hlen : argv.length ≤ 3
  · have hmain : main w argv = ⟨[], some 1, none⟩ := by simp [main, hlen]
    rw [hmain]
    refine ⟨?_, ?_, ?_⟩
    · exact last_of_all_but_last_ok _ (by simp)
    · simp
    · intro h; omega
  · rcases estimate_cases w Globals.initial (argv.getD 1 "") (argv.getD 2 "")
        (argv.getD 3 "") Mat.empty Mat.empty _ _ _ rfl rfl rfl with
      ⟨h1, hE⟩ | ⟨h1, h2, hE⟩ |
        ⟨h1, h2, h3, ⟨h4, hE⟩ | ⟨h4, h5, hE⟩ | ⟨h4, pose, h5, ⟨h6, hE⟩ | ⟨h6, hE⟩⟩⟩
    · have hmain : main w argv = ⟨[⟨.readObjectPoints, false⟩], some 1, none⟩ := by
        unfold main
        rw [if_neg hlen]
        simp only [hE]
      rw [hmain]
      exact ⟨last_of_all_but_last_ok _ (by simp), by simp, by simp⟩
    · have hmain : main w argv
          = ⟨[⟨.readObjectPoints, true⟩, ⟨.readImagePoints, false⟩], some 1, none⟩ := by
        unfold main
        rw [if_neg hlen]
        simp only [hE]
      rw [hmain]
      exact ⟨last_of_all_but_last_ok _ (by simp), by simp, by simp⟩
    · have hmain : main w argv
          = ⟨[⟨.readObjectPoints, true⟩, ⟨.readImagePoints, true⟩,
              ⟨.readCameraParameters, false⟩], some 1, none⟩ := by
        unfold main
        rw [if_neg hlen]
        simp only [hE]
      rw [hmain]
      exact ⟨last_of_all_but_last_ok _ (by simp), by simp, by simp⟩
    · have hmain : main w argv
          = ⟨[⟨.readObjectPoints, true⟩, ⟨.readImagePoints, true⟩,
              ⟨.readCameraParameters, true⟩, ⟨.solvePnP, false⟩], none, none⟩ := by
        unfold main
        rw [if_neg hlen]
        simp only [hE]
      rw [hmain]
      refine ⟨last_of_all_but_last_ok _ (by simp), by simp, ?_⟩
      intro _ h
      rcases h with h | h | h | h
      · rw [h1] at h; cases h
      · rw [h2] at h; cases h
      · omega
      · rw [h4] at h; cases h
    · have hmain : main w argv
          = ⟨[⟨.readObjectPoints, true⟩, ⟨.readImagePoints, true⟩,
              ⟨.readCameraParameters, true⟩, ⟨.solvePnP, true⟩, ⟨.projectPoints, true⟩,
              ⟨.evaluateImagePoints, false⟩], none, none⟩ := by
        unfold main
        rw [if_neg hlen]
        simp only [hE]
      rw [hmain]
      refine ⟨last_of_all_but_last_ok _ (by simp), by simp, ?_⟩
      intro _ h
      rcases h with h | h | h | h
      · rw [h1] at h; cases h
      · rw [h2] at h; cases h
      · omega
      · rw [h4] at h; cases h
    · have hmain : main w argv
          = ⟨[⟨.readObjectPoints, true⟩, ⟨.readImagePoints, true⟩,
              ⟨.readCameraParameters, true⟩, ⟨.solvePnP, true⟩, ⟨.projectPoints, true⟩,
              ⟨.evaluateImagePoints, true⟩,
              ⟨.writeCameraPosition, (writeCameraPosition w "camera_position.xml"
                pose.1 pose.2).1⟩], some 0,
              (writeCameraPosition w "camera_position.xml" pose.1 pose.2).2⟩ := by
        unfold main
        rw [if_neg hlen]
        simp only [hE]
        rfl
      rw [hmain]
      refine ⟨last_of_all_but_last_ok _ (by simp), by simp, ?_⟩
      intro _ h
      rcases h with h | h | h | h
      · rw [h1] at h; cases h
      · rw [h2] at h; cases h
      · omega
      · rw [h4] at h; cases h

theorem readLines_enumFrom (w : World) (lines : List String) :
    ∀ (i : Nat) (objectPoints : List Point3f),
      readLines w i lines objectPoints
        = objectPoints ++ (lines.enumFrom i).map (fun p => scanLine w p.1 p.2) := by
  induction lines with
  | nil => intro i objectPoints; simp [readLines]
  | cons l ls ih =>
    intro i objectPoints
    simp [readLines, ih, List.enumFrom_cons]

/-- C8 (as the code has it): the loader does not validate lines.  On every source
that opens, whatever its lines, `readObjectPoints` reports success and appends
exactly one point per line in line order, the point the unchecked scan of that line
leaves in `x`, `y`, `z`.  The point of a line `x,y,z` of three `int` literals is
`cv::Point3f(x, y, z)`, also when other lines of the source are malformed; it has
exactly the coordinates `x`, `y`, `z` when these are within `2^24` in magnitude (a
`cv::Point3f` holds `float`s). -/
theorem readObjectPoints_one_point_per_line (w : World) (filename : String)
    (objectPoints : List Point3f) (lines : List String)
    (hfile : w.textFile filename = some lines) :
    readObjectPoints w filename objectPoints
      = (true, objectPoints ++ lines.enum.map (fun p => scanLine w p.1 p.2)) ∧
    (lines.enum.map (fun p => scanLine w p.1 p.2)).length = lines.length ∧
    (∀ (i : Nat) (f : IntLiteral × IntLiteral × IntLiteral),
      f.1.IsInt → f.2.1.IsInt → f.2.2.IsInt →
      scanLine w i (tripleLine f) = Point3f.ofInt f.1.value f.2.1.value f.2.2.value ∧
      (f.1.value.natAbs ≤ 16777216 → f.2.1.value.natAbs ≤ 16777216 →
        f.2.2.value.natAbs ≤ 16777216 →
        scanLine w i (tripleLine f)
          = ⟨(f.1.value : ℚ), (f.2.1.value : ℚ), (f.2.2.value : ℚ)⟩)) := by
  refine ⟨?_, by simp, ?_⟩
  · simp only [readObjectPoints, hfile, readLines_enumFrom w lines 0 objectPoints, List.enum]
  · intro i f hx hy hz
    have hscan : scanLine w i (tripleLine f)
        = Point3f.ofInt f.1.value f.2.1.value f.2.2.value := by
      simp only [scanLine, sscanf_tripleLine f hx hy hz]
    refine ⟨hscan, ?_⟩
    intro h1 h2 h3
    rw [hscan, point3f_ofInt_exact _ _ _ h1 h2 h3]

/-- C10 (as the code has it): `estimateCameraPosition` reaches its stages in the
order object-point loader, collector, camera-parameter loader, solver, projection,
evaluator, stopping somewhere along it; the camera-parameter loader is invoked only
after the collector has succeeded.  For an input whose camera-parameter source is
unreadable or incomplete the run reports failure, and the collector has been invoked
before that whenever the object points were loaded. -/
theorem estimateCameraPosition_stage_order (w : World) (g : Globals) (obj img cam : String)
    (rvec tvec : Mat) :
    ((estimateCameraPosition w g obj img cam rvec tvec).trace.map Call.stage <+: stageOrder) ∧
    ((∃ c ∈ (estimateCameraPosition w g obj img cam rvec tvec).trace,
        c.stage = .readCameraParameters) →
      (⟨.readImagePoints, true⟩ : Call)
        ∈ (estimateCameraPosition w g obj img cam rvec tvec).trace) ∧
    ((readCameraParameters w cam Mat.empty Mat.empty).1 = false →
      (estimateCameraPosition w g obj img cam rvec tvec).result = some false ∧
      ((readObjectPoints w obj []).1 = true →
        ∃ c ∈ (estimateCameraPosition w g obj img cam rvec tvec).trace,
          c.stage = .readImagePoints)) := by
  rcases estimate_cases w g obj img cam rvec tvec _ _ _ rfl rfl rfl with
    ⟨h1, hE⟩ | ⟨h1, h2, hE⟩ |
      ⟨h1, h2, h3, ⟨h4, hE⟩ | ⟨h4, h5, hE⟩ | ⟨h4, pose, h5, ⟨h6, hE⟩ | ⟨h6, hE⟩⟩⟩
  · rw [hE]
    exact ⟨⟨_, rfl⟩, by simp, by simp [h1]⟩
  · rw [hE]
    exact ⟨⟨_, rfl⟩, by simp, by simp⟩
  · rw [hE]
    exact ⟨⟨_, rfl⟩, by simp, by simp⟩
  · rw [hE]
    exact ⟨⟨_, rfl⟩, by simp, by simp [h4]⟩
  · rw [hE]
    exact ⟨⟨_, rfl⟩, by simp, by simp [h4]⟩
  · rw [hE]
    exact ⟨⟨_, rfl⟩, by simp, by simp [h4]⟩

/-! ## Concrete runs -/

/-- C1 at a concrete run: target count 4 and the eight events of `sampleWorld`, of
which five are left clicks; the collector succeeds with the first four of them. -/
theorem readImagePoints_success_iff_witness :
    (4 : Nat) < 2147483648 ∧ sampleWorld.imread "image.png" = true ∧
    ∃ r, readImagePoints sampleWorld Globals.initial "image.png" ((4 : Nat) : Int) [] = some r ∧
      r.ok = true ∧
      r.imagePoints = [⟨320, 320⟩, ⟨370, 320⟩, ⟨320, 370⟩, ⟨320, 320⟩] := by
  refine ⟨by decide, rfl, ?_⟩
  obtain ⟨r, h1, h2, _, _, h5, _⟩ :=
    readImagePoints_success_iff sampleWorld Globals.initial "image.png" 4 (by decide) rfl
  have hok : r.ok = true := h2.mpr (by decide!)
  refine ⟨r, h1, hok, ?_⟩
  rw [(h5 hok).2]
  decide!

/-- C2 at a concrete state: an empty vector with target count 2 takes the left click
at (10, 20) as its only point, the point with coordinates 10 and 20. -/
theorem onMouse_two_state_machine_witness :
    (⟨"image.png", some [], 2, some []⟩ : Globals).s_clickedPoints = some [] ∧
    ∃ g1 pts1, onMouse ⟨"image.png", some [], 2, some []⟩ ⟨1, 10, 20, 0⟩ = some g1 ∧
      g1.s_clickedPoints = some pts1 ∧ pts1 = [⟨10, 20⟩] ∧ g1.s_maxClickedCount = 2 := by
  obtain ⟨g1, pts1, h1, h2, _, h4, _, h6⟩ :=
    (onMouse_two_state_machine ⟨"image.png", some [], 2, some []⟩ [] rfl).1
      ⟨1, 10, 20, 0⟩ rfl (by decide)
  refine ⟨rfl, g1, pts1, h1, h2, ?_, h6⟩
  rw [h4 (by decide) (by decide)]
  simp

/-- C3 as amended, at a concrete run: in `sampleWorld` the solver is invoked, on four object
points and four image points. -/
theorem solver_input_lengths_agree_witness :
    (readObjectPoints sampleWorld "object_points.txt" []).2.length < 2147483648 ∧
    (estimateCameraPosition sampleWorld Globals.initial "object_points.txt" "image.png"
      "camera.xml" Mat.empty Mat.empty).solverInput ≠ none ∧
    ∀ ops ips, (estimateCameraPosition sampleWorld Globals.initial "object_points.txt"
        "image.png" "camera.xml" Mat.empty Mat.empty).solverInput = some (ops, ips) →
      ops = (readObjectPoints sampleWorld "object_points.txt" []).2 ∧
        ips.length = ops.length :=
  ⟨by decide!, by decide!,
    (solver_input_lengths_agree sampleWorld Globals.initial "object_points.txt" "image.png"
      "camera.xml" Mat.empty Mat.empty (by decide!)).1⟩

/-- C4 fails on the code: with three object points and three left clicks,
`estimateCameraPosition` returns `true` with the pose the solver left; and when the
solver throws instead, the function does not return at all, so in neither case does it
report failure. -/
theorem few_points_not_reported :
    (readObjectPoints threePointWorld "object_points.txt" []).2.length = 3 ∧
    (estimateCameraPosition threePointWorld Globals.initial "object_points.txt" "image.png"
      "camera.xml" Mat.empty Mat.empty).result = some true ∧
    (estimateCameraPosition threePointWorld Globals.initial "object_points.txt" "image.png"
      "camera.xml" Mat.empty Mat.empty).tvec = ⟨3, 1, [0, 0, 100]⟩ ∧
    (main threePointWorld sampleArgv).exitCode = some 0 ∧
    (estimateCameraPosition threePointThrowWorld Globals.initial "object_points.txt"
      "image.png" "camera.xml" Mat.empty Mat.empty).result = none := by
  decide!

/-- C4 as amended, at `threePointWorld`. -/
theorem estimateCameraPosition_few_points_witness :
    (readObjectPoints threePointWorld "object_points.txt" []).2.length < 4 ∧
    ((estimateCameraPosition threePointWorld Globals.initial "object_points.txt" "image.png"
        "camera.xml" Mat.empty Mat.empty).result = some false ↔
      ((readObjectPoints threePointWorld "object_points.txt" []).1 = false ∨
        threePointWorld.imread "image.png" = false ∨
        (leftClicks threePointWorld.collectEvents).length
          < (readObjectPoints threePointWorld "object_points.txt" []).2.length ∨
        (readCameraParameters threePointWorld "camera.xml" Mat.empty Mat.empty).1 = false)) :=
  ⟨by decide!,
    (estimateCameraPosition_few_points threePointWorld Globals.initial "object_points.txt"
      "image.png" "camera.xml" Mat.empty Mat.empty (by decide!)).1⟩

/-- C5 at the failing input: every stage of `unwritableWorld` succeeds except the
writer, and `main` returns 0 with nothing written. -/
theorem main_exit_zero_when_write_fails_witness :
    3 < sampleArgv.length ∧
    unwritableWorld.writable "camera_position.xml" = false ∧
    (main unwritableWorld sampleArgv).written = none ∧
    (main unwritableWorld sampleArgv).exitCode = some 0 :=
  ⟨by decide, rfl,
    (main_exit_zero_when_write_fails unwritableWorld sampleArgv (by decide) (by decide!)
      rfl).2.2⟩

/-- C7 at a concrete file: the line `12,-7,+005` yields the point (12, -7, 5). -/
theorem readObjectPoints_wellformed_witness :
    readObjectPoints literalWorld "object_points.txt" []
      = (true, [] ++ literalFields.map triplePoint) ∧
    literalFields.map triplePoint = [⟨12, -7, 5⟩] :=
  ⟨(readObjectPoints_wellformed literalWorld "object_points.txt" []).1 literalFields
    (by decide!) (by decide!), by decide!⟩

/-- C8 fails on the code: for the file `1,2,3`, a blank line, `4,5` the loader reports
success and returns three points; the blank line gets the point of whatever the
locals held, the short line keeps the third of them. -/
theorem malformed_lines_get_points :
    readObjectPoints malformedWorld "object_points.txt" []
      = (true, [⟨1, 2, 3⟩, ⟨7, 8, 9⟩, ⟨4, 5, 9⟩]) := by
  decide!

/-- C8 as amended, at `malformedWorld`. -/
theorem readObjectPoints_one_point_per_line_witness :
    malformedWorld.textFile "object_points.txt" = some ["1,2,3", "", "4,5"] ∧
    (readObjectPoints malformedWorld "object_points.txt" []).1 = true ∧
    (readObjectPoints malformedWorld "object_points.txt" []).2.length = 3 := by
  have h := readObjectPoints_one_point_per_line malformedWorld "object_points.txt" []
    ["1,2,3", "", "4,5"] rfl
  refine ⟨rfl, ?_, ?_⟩
  · rw [h.1]
  · rw [h.1]
    simp

/-- C10 fails on the code: with a camera-parameter file that does not open, the
collector is invoked (and succeeds) before the camera-parameter loader is reached. -/
theorem collector_runs_before_camera_parameters :
    (readCameraParameters noCameraWorld "camera.xml" Mat.empty Mat.empty).1 = false ∧
    (estimateCameraPosition noCameraWorld Globals.initial "object_points.txt" "image.png"
      "camera.xml" Mat.empty Mat.empty).trace
      = [⟨.readObjectPoints, true⟩, ⟨.readImagePoints, true⟩,
          ⟨.readCameraParameters, false⟩] := by
  decide!

theorem readObjectPoints_opened (w : World) (filename : String) (lines : List String)
    (hfile : w.textFile filename = some lines) :
    (readObjectPoints w filename []).1 = true ∧
    (readObjectPoints w filename []).2.length = lines.length := by
  simp [readObjectPoints, hfile, readLines_enumFrom w lines 0 []]

theorem hugeLines_length : hugeLines.length = 4294967300 := by
  unfold hugeLines
  exact List.length_replicate _ _

theorem toSizeT_toInt32_wraps : toSizeT (toInt32 ((4294967300 : Nat) : Int)) = 4 := by
  unfold toSizeT toInt32
  decide

/-- C3 fails on the code: on an object-point file of `2^32 + 4` lines the count
handed to the collector as an `int` is 4; the collector takes the first four of the
five left clicks and reports success, and the solver is invoked on 4294967300 object points and 4 image points;
`estimateCameraPosition` returns `true`. -/
theorem solver_reached_with_unequal_lengths :
    (readObjectPoints hugeWorld "object_points.txt" []).2.length = 4294967300 ∧
    ∃ ops ips,
      (estimateCameraPosition hugeWorld Globals.initial "object_points.txt" "image.png"
        "camera.xml" Mat.empty Mat.empty).solverInput = some (ops, ips) ∧
      ops.length = 4294967300 ∧ ips.length = 4 ∧
      (⟨.solvePnP, true⟩ : Call) ∈ (estimateCameraPosition hugeWorld Globals.initial
        "object_points.txt" "image.png" "camera.xml" Mat.empty Mat.empty).trace ∧
      (estimateCameraPosition hugeWorld Globals.initial "object_points.txt" "image.png"
        "camera.xml" Mat.empty Mat.empty).result = some true := by
  obtain ⟨hrop, hlen⟩ := readObjectPoints_opened hugeWorld "object_points.txt" hugeLines rfl
  rw [hugeLines_length] at hlen
  have hclicks : (leftClicks hugeWorld.collectEvents).length = 5 := by decide!
  have hcp : (readCameraParameters hugeWorld "camera.xml" Mat.empty Mat.empty).1 = true := by
    decide!
  refine ⟨hlen, ?_⟩
  rcases estimate_cases hugeWorld Globals.initial "object_points.txt" "image.png"
      "camera.xml" Mat.empty Mat.empty _ _ _ rfl rfl rfl with
    ⟨h1, _⟩ | ⟨_, h2, _⟩ |
      ⟨_, _, _, ⟨h4, _⟩ | ⟨_, h5, _⟩ | ⟨_, pose, _, ⟨h6, _⟩ | ⟨_, hE⟩⟩⟩
  · rw [hrop] at h1; cases h1
  · rw [hlen, toSizeT_toInt32_wraps, hclicks] at h2
    rcases h2 with h2 | h2
    · cases h2
    · omega
  · rw [hcp] at h4; cases h4
  · cases h5
  · obtain ⟨e, he1, he2⟩ := h6
    have : e = ⟨0, 5, 5, 0⟩ := by simpa [hugeWorld, sampleWorld] using he1
    subst this
    cases he2
  · rw [hE]
    refine ⟨_, _, rfl, hlen, ?_, by simp, rfl⟩
    rw [hlen, toSizeT_toInt32_wraps, List.length_take, hclicks]
    rfl

/-- C7 fails on the code: the line `16777217,0,0` yields the point (16777216, 0, 0),
the nearest `float`, and the line `2147483648,0,0`, whose first number no `int`
holds, yields (-2147483648, 0, 0). -/
theorem large_coordinates_not_kept :
    readObjectPoints largeCoordinateWorld "object_points.txt" []
      = (true, [⟨16777216, 0, 0⟩, ⟨-2147483648, 0, 0⟩]) ∧
    (⟨16777216, 0, 0⟩ : Point3f) ≠ ⟨16777217, 0, 0⟩ ∧
    (⟨-2147483648, 0, 0⟩ : Point3f) ≠ ⟨2147483648, 0, 0⟩ := by
  decide!

end CameraPosition
